import Mathlib

/- Verification of the plausible-mcp query-validation and filter-membership
code. The repository contains two revisions of the filter engine:
`src/src/utils.ts` (definitions suffixed `U` below) and
`src/unnamed/part_003` (definitions suffixed `P` below), together with the
semantic validator of `part_003`. Filter values are loosely typed nested
arrays in the source, modelled here by the `JsVal` type. -/

/-- Runtime values as they can appear in a filter tree: strings, numbers,
booleans, arrays, plain objects (only used as the optional case-sensitivity
modifier, never inspected by the code under study) and `undefined`. -/
inductive JsVal where
| str (s : String)
| num (n : Int)
| bool (b : Bool)
| arr (xs : List JsVal)
| obj
| undefinedV

/-- Indexing `v[i]`. On arrays this is element access (out of range gives
`undefined`), on strings it yields the one-character string at that position,
and on numbers, booleans and objects it gives `undefined`, exactly as in
JavaScript. Real JavaScript throws a TypeError when indexing `undefined`;
every caller below that can reach an `undefined` receiver checks for it
explicitly first, so the `undef` case here is unreachable. -/
def jsGet : JsVal → Nat → JsVal
| .arr xs, i => xs.getD i .undefinedV
| .str s, i =>
    match s.data[i]? with
    | some c => .str (String.mk [c])
    | none => .undefinedV
| .num _, _ => .undefinedV
| .bool _, _ => .undefinedV
| .obj, _ => .undefinedV
| .undefinedV, _ => .undefinedV

/-- Strict equality `v === s` against a string literal: true exactly when
`v` is that string. -/
def jsEqStr : JsVal → String → Bool
| .str t, s => t == s
| _, _ => false

/-- Whether a value is an array (`Array.isArray`). -/
def JsVal.isArr : JsVal → Bool
| .arr _ => true
| _ => false

/-- Whether a value is a string (`typeof v === "string"`). -/
def JsVal.isStr : JsVal → Bool
| .str _ => true
| _ => false

mutual

/-- Size measure used for termination of the recursive traversals.
Every non-array value counts 1. -/
def JsVal.size : JsVal → Nat
| .arr xs => 1 + JsVal.sizeList xs
| _ => 1

/-- Sum of the sizes of a list of values. -/
def JsVal.sizeList : List JsVal → Nat
| [] => 0
| x :: xs => JsVal.size x + JsVal.sizeList xs

end

theorem JsVal.size_pos (v : JsVal) : 1 ≤ v.size := by
  cases v <;> simp [JsVal.size]

theorem JsVal.mem_size_le {x : JsVal} {xs : List JsVal} (h : x ∈ xs) :
    x.size ≤ JsVal.sizeList xs := by
  induction xs with
  | nil => cases h
  | cons y ys ih =>
      rcases List.mem_cons.mp h with rfl | hmem
      · simp [JsVal.sizeList]
      · have htmp := ih hmem
        simp [JsVal.sizeList]
        omega

theorem JsVal.getD_mem_or (xs : List JsVal) (i : Nat) :
    xs.getD i .undefinedV ∈ xs ∨ xs.getD i .undefinedV = .undefinedV := by
  induction xs generalizing i with
  | nil => right; simp [List.getD]
  | cons y ys ih =>
      cases i with
      | zero => left; simp [List.getD]
      | succ j =>
          rcases ih j with h | h
          · left
            simpa [List.getD] using List.mem_cons_of_mem y h
          · right
            simpa [List.getD] using h

theorem JsVal.size_getD_le (xs : List JsVal) (i : Nat) :
    (xs.getD i .undefinedV).size ≤ 1 + JsVal.sizeList xs := by
  rcases JsVal.getD_mem_or xs i with h | h
  · have htmp := JsVal.mem_size_le h
    omega
  · rw [h]
    simp [JsVal.size]

theorem JsVal.sizeList_nonneg_head (x : JsVal) (xs : List JsVal) :
    1 ≤ JsVal.sizeList (x :: xs) := by
  have htmp := JsVal.size_pos x
  simp [JsVal.sizeList]
  omega

theorem JsVal.size_getD_le_of_ne (xs : List JsVal) (i : Nat) (h : xs ≠ []) :
    (xs.getD i .undefinedV).size ≤ JsVal.sizeList xs := by
  rcases JsVal.getD_mem_or xs i with hm | hm
  · exact JsVal.mem_size_le hm
  · rw [hm]
    cases xs with
    | nil => exact absurd rfl h
    | cons y ys =>
        have htmp := JsVal.sizeList_nonneg_head y ys
        simpa [JsVal.size] using htmp

mutual

/-- String conversion as performed by a JavaScript template literal
`` `event:${type}` ``: strings pass through, numbers and booleans print,
arrays join their elements with commas (with `undefined` elements printed
as the empty string), objects print as `[object Object]` and `undefined`
prints as `undefined`. -/
def jsToString : JsVal → String
| .str s => s
| .num n => toString n
| .bool b => if b then "true" else "false"
| .arr xs => jsToStringList xs
| .obj => "[object Object]"
| .undefinedV => "undefined"
termination_by v => 3 * v.size
decreasing_by
simp [JsVal.size]
omega

/-- Comma-joined conversion of array elements (Array.prototype.join). -/
def jsToStringList : List JsVal → String
| [] => ""
| [x] => jsToStringElem x
| x :: xs => jsToStringElem x ++ "," ++ jsToStringList xs
termination_by xs => 3 * JsVal.sizeList xs + 2
decreasing_by
all_goals simp [JsVal.sizeList]
all_goals first
  | omega
  | (have hx := JsVal.size_pos x; omega)

/-- Element conversion inside a join: `undefined` becomes the empty string. -/
def jsToStringElem : JsVal → String
| .undefinedV => ""
| v => jsToString v
termination_by v => 3 * v.size + 1
decreasing_by
omega

end

/- ------------------------------------------------------------------ -/
/- Revision `src/src/utils.ts` (suffix `U`). In this revision a simple
filter is `[dimension, operator, value]` and a behavioral filter is the
3-tuple `[operator, "goal" | "page", value]`. -/

/-- `checkSimpleFilter` of utils.ts: `const [filterDimension] = filter;
return filterDimension === dimension;`. Only ever applied to arrays. -/
def checkSimpleFilterU (filter : JsVal) (dimension : String) : Bool :=
  jsEqStr (jsGet filter 0) dimension

/-- `checkBehavioralFilter` of utils.ts: `const [, type] = filter;
return dimension === `event:${type}`;`. -/
def checkBehavioralFilterU (filter : JsVal) (dimension : String) : Bool :=
  dimension == "event:" ++ jsToString (jsGet filter 1)

/-- Length-3 half of `checkSingleFilter` of utils.ts: behavioral when the
head is a behavioral operator, simple when the head is a string, false
otherwise; false when the length is not 3. -/
def checkLen3U (d : String) (xs : List JsVal) : Bool :=
  if xs.length = 3 then
    if jsEqStr (xs.getD 0 .undefinedV) "has_done" || jsEqStr (xs.getD 0 .undefinedV) "has_not_done" then
      checkBehavioralFilterU (.arr xs) d
    else if (xs.getD 0 .undefinedV).isStr then
      checkSimpleFilterU (.arr xs) d
    else false
  else false

mutual

/-- `checkSingleFilter` of utils.ts. Non-arrays are rejected up front;
a 2-element array whose second element is an array is a logical node and
recurses over the nested filters; otherwise the 3-element cases apply. -/
def checkSingleFilterU (d : String) : JsVal → Bool
| .arr xs =>
    match hg : xs.getD 1 .undefinedV with
    | .arr ys => if xs.length = 2 then someU d ys else checkLen3U d xs
    | _ => checkLen3U d xs
| _ => false
termination_by v => 2 * v.size
decreasing_by
rename_i xs hlen
have hmem : JsVal.arr ys ∈ xs := by
  rcases JsVal.getD_mem_or xs 1 with hm | hm
  · rw [hg] at hm; exact hm
  · rw [hg] at hm; cases hm
have htmp := JsVal.mem_size_le hmem
simp [JsVal.size, JsVal.sizeList] at htmp ⊢
omega

/-- Short-circuiting `Array.prototype.some` over `checkSingleFilter`,
as used by the logical branch and by `hasFilterForDimension`. -/
def someU (d : String) : List JsVal → Bool
| [] => false
| x :: xs => checkSingleFilterU d x || someU d xs
termination_by xs => 2 * JsVal.sizeList xs + 1
decreasing_by
all_goals simp [JsVal.sizeList]
all_goals first
  | omega
  | (have hx := JsVal.size_pos x; omega)

end

/-- `hasFilterForDimension` of utils.ts: both parameters are optional and
the search returns false when the filters are undefined, the dimension is
undefined, or the dimension is the empty string. -/
def hasFilterForDimensionU (filters : Option (List JsVal)) (dimension : Option String) : Bool :=
  match filters, dimension with
  | none, _ => false
  | _, none => false
  | some fs, some d => if d = "" then false else someU d fs

/- ------------------------------------------------------------------ -/
/- Revision `src/unnamed/part_003` (suffix `P`). In this revision a simple
filter is `[operator, dimension, values, modifier?]` and a behavioral
filter is the 2-tuple `[operator, simple_filter]`. The traversal can throw
a TypeError at runtime (modelled as `Except Unit`): indexing `undefined`
throws, and calling `.some` on a non-array throws. -/

/-- `checkSimpleFilter` of part_003: `return filter[1] === dimension;`. -/
def checkSimpleFilterP (filter : JsVal) (dimension : String) : Bool :=
  jsEqStr (jsGet filter 1) dimension

/-- `checkBehavioralFilter` of part_003: `return filter[1][1] === dimension;`.
Throws when `filter[1]` is `undefined`. -/
def checkBehavioralFilterP (filter : JsVal) (dimension : String) : Except Unit Bool :=
  match jsGet filter 1 with
  | .undefinedV => .error ()
  | inner => .ok (jsEqStr (jsGet inner 1) dimension)

mutual

/-- `checkSingleFilter` of part_003: reads `filter[0]` as the operator
(throwing if the filter itself is `undefined`), dispatches on
and/or, not, has_done/has_not_done and the segment shape, and falls back
to the simple-filter check. A non-array, non-undefined value can never
produce a multi-character operator (string indexing yields one-character
strings), so for those the chain reaches the simple-filter fallback. -/
def checkSingleFilterP (d : String) : JsVal → Except Unit Bool
| .undefinedV => .error ()
| .arr xs =>
    if jsEqStr (xs.getD 0 .undefinedV) "and" || jsEqStr (xs.getD 0 .undefinedV) "or" then
      hasFilterForDimensionP d (xs.getD 1 .undefinedV)
    else if h : jsEqStr (xs.getD 0 .undefinedV) "not" = true then
      hasFilterForDimensionP d (.arr [xs.getD 1 .undefinedV])
    else if jsEqStr (xs.getD 0 .undefinedV) "has_done" || jsEqStr (xs.getD 0 .undefinedV) "has_not_done" then
      checkBehavioralFilterP (.arr xs) d
    else if jsEqStr (xs.getD 0 .undefinedV) "is" && jsEqStr (xs.getD 1 .undefinedV) "segment" then
      .ok false
    else
      .ok (checkSimpleFilterP (.arr xs) d)
| v => .ok (checkSimpleFilterP v d)
termination_by v => 3 * v.size + 1
decreasing_by
· have htmp := JsVal.size_getD_le xs 1
  simp [JsVal.size, JsVal.sizeList] at htmp ⊢
  omega
· have hne : xs ≠ [] := by
    intro hnil
    rw [hnil] at h
    simp [List.getD, jsEqStr] at h
  have htmp := JsVal.size_getD_le_of_ne xs 1 hne
  simp [JsVal.size, JsVal.sizeList] at htmp ⊢
  omega

/-- `hasFilterForDimension` of part_003:
`if (filters === undefined || filters.length === 0) return false;
return filters.some(...)`. On a non-array, non-undefined argument the
`.length === 0` test only succeeds for the empty string; otherwise the
`.some` call throws a TypeError. -/
def hasFilterForDimensionP (d : String) : JsVal → Except Unit Bool
| .undefinedV => .ok false
| .arr xs => if xs.length = 0 then .ok false else someP d xs
| .str s => if s.length = 0 then .ok false else .error ()
| _ => .error ()
termination_by v => 3 * v.size
decreasing_by
simp [JsVal.size]
omega

/-- Short-circuiting, exception-propagating `Array.prototype.some` over
`checkSingleFilter` of part_003. -/
def someP (d : String) : List JsVal → Except Unit Bool
| [] => .ok false
| x :: xs =>
    match checkSingleFilterP d x with
    | .error e => .error e
    | .ok true => .ok true
    | .ok false => someP d xs
termination_by xs => 3 * JsVal.sizeList xs + 2
decreasing_by
all_goals simp [JsVal.sizeList]
all_goals first
  | omega
  | (have hx := JsVal.size_pos x; omega)

end

/-- Conversion of the optional `filters` parameter of the part_003
validators to the value passed to `hasFilterForDimension`. -/
def jsFilters : Option (List JsVal) → JsVal
| none => .undefinedV
| some fs => .arr fs

/- ------------------------------------------------------------------ -/
/- Spec-level filter data model (section 3 of the spec): a recursive
tagged union of simple, logical (and/or with children, not with exactly
one child), behavioral and segment filters. Each revision encodes this
model into its own loose array convention. -/

/-- Simple-filter operators. -/
inductive SimpleOp where
| is | is_not | contains | contains_not | matches | matches_not
deriving DecidableEq

/-- String form of a simple-filter operator. -/
def SimpleOp.str : SimpleOp → String
| .is => "is"
| .is_not => "is_not"
| .contains => "contains"
| .contains_not => "contains_not"
| .matches => "matches"
| .matches_not => "matches_not"

/-- Behavioral operators. -/
inductive BOp where
| has_done | has_not_done
deriving DecidableEq

/-- String form of a behavioral operator. -/
def BOp.str : BOp → String
| .has_done => "has_done"
| .has_not_done => "has_not_done"

/-- Behavioral target types. -/
inductive BType where
| goal | page
deriving DecidableEq

/-- String form of a behavioral target type. -/
def BType.str : BType → String
| .goal => "goal"
| .page => "page"

/-- The recursive tagged union of filter expressions from the spec data
model: simple, and/or with a children list, not with one child, behavioral
with a target type and value, and segment with numeric ids. -/
inductive SpecFilter where
| simple (op : SimpleOp) (dim : String) (vals : List String)
| andF (children : List SpecFilter)
| orF (children : List SpecFilter)
| notF (child : SpecFilter)
| behavioral (op : BOp) (btype : BType) (value : String)
| segment (ids : List Int)

mutual

/-- Size measure for `SpecFilter`. -/
def SpecFilter.size : SpecFilter → Nat
| .andF cs => 1 + SpecFilter.sizeList cs
| .orF cs => 1 + SpecFilter.sizeList cs
| .notF c => 1 + c.size
| _ => 1

/-- Sum of sizes of a list of filters. -/
def SpecFilter.sizeList : List SpecFilter → Nat
| [] => 0
| c :: cs => c.size + SpecFilter.sizeList cs

end

theorem SpecFilter.size_ge_one (f : SpecFilter) : 1 ≤ f.size := by
  cases f <;> simp [SpecFilter.size]

theorem SpecFilter.size_le_of_mem {c : SpecFilter} {cs : List SpecFilter} (h : c ∈ cs) :
    c.size ≤ SpecFilter.sizeList cs := by
  induction cs with
  | nil => cases h
  | cons y ys ih =>
      rcases List.mem_cons.mp h with rfl | hmem
      · simp [SpecFilter.sizeList]
      · have htmp := ih hmem
        simp [SpecFilter.sizeList]
        omega

mutual

/-- Encoding of the spec filter model in the utils.ts conventions:
simple filters are `[dimension, operator, values]`, logical nodes are
`[op, [children]]` (also for `not`, per the `LogicalFilter` type of
`src/src/types.ts`), behavioral nodes are the 3-tuple
`[operator, type, value]`, segments are `["is", "segment", ids]`. -/
def SpecFilter.encodeU : SpecFilter → JsVal
| .simple op dim vals => .arr [.str dim, .str op.str, .arr (vals.map .str)]
| .andF cs => .arr [.str "and", .arr (SpecFilter.encodeUList cs)]
| .orF cs => .arr [.str "or", .arr (SpecFilter.encodeUList cs)]
| .notF c => .arr [.str "not", .arr [c.encodeU]]
| .behavioral op t v => .arr [.str op.str, .str t.str, .str v]
| .segment ids => .arr [.str "is", .str "segment", .arr (ids.map .num)]

/-- Elementwise utils.ts encoding of a filter list. -/
def SpecFilter.encodeUList : List SpecFilter → List JsVal
| [] => []
| c :: cs => c.encodeU :: SpecFilter.encodeUList cs

end

mutual

/-- Encoding of the spec filter model in the part_003 conventions:
simple filters are `[operator, dimension, values]`, and/or nodes are
`[op, [children]]`, `not` carries its single child directly (the shape the
part_003 traversal handles, matching the spec's `(not, child)`),
behavioral nodes are `[operator, inner_simple_filter]` whose inner filter
constrains the synthesized dimension `event:<type>`, segments are
`["is", "segment", ids]`. -/
def SpecFilter.encodeP : SpecFilter → JsVal
| .simple op dim vals => .arr [.str op.str, .str dim, .arr (vals.map .str)]
| .andF cs => .arr [.str "and", .arr (SpecFilter.encodePList cs)]
| .orF cs => .arr [.str "or", .arr (SpecFilter.encodePList cs)]
| .notF c => .arr [.str "not", c.encodeP]
| .behavioral op t v =>
    .arr [.str op.str, .arr [.str "is", .str ("event:" ++ t.str), .arr [.str v]]]
| .segment ids => .arr [.str "is", .str "segment", .arr (ids.map .num)]

/-- Elementwise part_003 encoding of a filter list. -/
def SpecFilter.encodePList : List SpecFilter → List JsVal
| [] => []
| c :: cs => c.encodeP :: SpecFilter.encodePList cs

end

mutual

/-- Dimension-membership predicate on the spec filter model: a simple
node matches its own dimension, and/or/not are transparent wrappers, a
behavioral node targets the synthesized dimension `event:<type>` (the
dimension its inner simple filter constrains), segments never match. -/
def SpecFilter.reaches (d : String) : SpecFilter → Bool
| .simple _ dim _ => dim == d
| .andF cs => SpecFilter.reachesList d cs
| .orF cs => SpecFilter.reachesList d cs
| .notF c => c.reaches d
| .behavioral _ t _ => d == "event:" ++ t.str
| .segment _ => false

/-- Whether some filter in the list reaches the dimension. -/
def SpecFilter.reachesList (d : String) : List SpecFilter → Bool
| [] => false
| c :: cs => c.reaches d || SpecFilter.reachesList d cs

end

mutual

/-- Cleanliness side condition used for the cross-revision comparison:
no simple filter uses a behavioral operator name as its dimension and no
`is` simple filter has dimension `segment` (such nodes are
indistinguishable from behavioral or segment nodes in at least one of the
two array conventions). -/
def SpecFilter.clean : SpecFilter → Bool
| .simple op dim _ =>
    dim != "has_done" && dim != "has_not_done" && !(op = SimpleOp.is && dim = "segment")
| .andF cs => SpecFilter.cleanList cs
| .orF cs => SpecFilter.cleanList cs
| .notF c => c.clean
| .behavioral _ _ _ => true
| .segment _ => true

/-- Cleanliness of every filter in a list. -/
def SpecFilter.cleanList : List SpecFilter → Bool
| [] => true
| c :: cs => c.clean && SpecFilter.cleanList cs

end

deriving instance DecidableEq for Except

/-- JavaScript `String.prototype.startsWith`: prefix test on the
character sequences. -/
def strStartsWith (s pre : String) : Bool := pre.data.isPrefixOf s.data

/- ------------------------------------------------------------------ -/
/- Date handling. The zod schema of part_003 admits exactly the grammar
`YYYY-MM-DD` or `YYYY-MM-DDTHH:mm:ss+HH:MM` / `...-HH:MM` for custom date
ranges, and `validateDateRange` then compares `new Date(start)` with
`new Date(end)`. For strings of that grammar, JavaScript Date parsing
validates the calendar ranges (month 1-12, day within the month, time
fields in range, offset hour at most 23) and yields a timestamp; a
date-only string is taken at UTC midnight. `parseIsoDate` models exactly
that: it returns the parsed fields, and `IsoDateTime.timestamp` the epoch
second count that JavaScript date comparison orders by. -/

/-- Calendar date-time with a UTC offset in minutes. -/
structure IsoDateTime where
  year : Nat
  month : Nat
  day : Nat
  hour : Nat
  minute : Nat
  second : Nat
  offsetMinutes : Int
deriving DecidableEq

/-- Leap year test of the Gregorian calendar. -/
def isLeapYear (y : Nat) : Bool :=
  (y % 4 = 0 && y % 100 ≠ 0) || y % 400 = 0

/-- Number of days of a month. -/
def daysInMonth (y m : Nat) : Nat :=
  if m = 2 then (if isLeapYear y then 29 else 28)
  else if m = 4 || m = 6 || m = 9 || m = 11 then 30
  else 31

/-- Days in the months strictly before month `m` of year `y`. -/
def monthDaysBefore (y m : Nat) : Nat :=
  let l : Nat := if isLeapYear y then 1 else 0
  match m with
  | 1 => 0
  | 2 => 31
  | 3 => 59 + l
  | 4 => 90 + l
  | 5 => 120 + l
  | 6 => 151 + l
  | 7 => 181 + l
  | 8 => 212 + l
  | 9 => 243 + l
  | 10 => 273 + l
  | 11 => 304 + l
  | _ => 334 + l

/-- Number of leap years in the interval from year 0 (inclusive, a leap
year) up to year `y` (exclusive). -/
def leapYearsBefore (y : Nat) : Nat :=
  if y = 0 then 0 else 1 + (y - 1) / 4 - (y - 1) / 100 + (y - 1) / 400

/-- Day number of a calendar date, counting from 0000-01-01. -/
def civilDays (y m d : Nat) : Nat :=
  365 * y + leapYearsBefore y + monthDaysBefore y m + (d - 1)

/-- Epoch-style second count that JavaScript date comparison orders by
(the common offset to the Unix epoch cancels in every comparison). -/
def IsoDateTime.timestamp (t : IsoDateTime) : Int :=
  (civilDays t.year t.month t.day : Int) * 86400
    + t.hour * 3600 + t.minute * 60 + t.second - t.offsetMinutes * 60

/-- Numeric value of two decimal digit characters. -/
def twoDigits (a b : Char) : Option Nat :=
  if a.isDigit && b.isDigit then some ((a.toNat - 48) * 10 + (b.toNat - 48)) else none

/-- Numeric value of four decimal digit characters. -/
def fourDigits (a b c d : Char) : Option Nat :=
  match twoDigits a b, twoDigits c d with
  | some hi, some lo => some (hi * 100 + lo)
  | _, _ => some 0 |>.bind fun _ => none

/-- Range validation performed by JavaScript ISO date parsing: the month
and day must exist in the calendar, the time fields must be in range
(hour 24 is accepted only as 24:00:00, meaning the following midnight). -/
def mkIsoDateTime (y m d hh mi se : Nat) (off : Int) : Option IsoDateTime :=
  if 1 ≤ m ∧ m ≤ 12 ∧ 1 ≤ d ∧ d ≤ daysInMonth y m
      ∧ (hh ≤ 23 ∨ (hh = 24 ∧ mi = 0 ∧ se = 0)) ∧ mi ≤ 59 ∧ se ≤ 59 then
    some ⟨y, m, d, hh, mi, se, off⟩
  else none

/-- Parser for the date grammar admitted by the zod schema, with the
calendar validation JavaScript Date parsing performs on it. -/
def parseIsoDate (s : String) : Option IsoDateTime :=
  match s.data with
  | [y1, y2, y3, y4, '-', m1, m2, '-', d1, d2] => do
      let y ← fourDigits y1 y2 y3 y4
      let m ← twoDigits m1 m2
      let d ← twoDigits d1 d2
      mkIsoDateTime y m d 0 0 0 0
  | [y1, y2, y3, y4, '-', m1, m2, '-', d1, d2, 'T',
     h1, h2, ':', n1, n2, ':', s1, s2, sg, o1, o2, ':', p1, p2] => do
      let y ← fourDigits y1 y2 y3 y4
      let m ← twoDigits m1 m2
      let d ← twoDigits d1 d2
      let hh ← twoDigits h1 h2
      let mi ← twoDigits n1 n2
      let se ← twoDigits s1 s2
      let oh ← twoDigits o1 o2
      let om ← twoDigits p1 p2
      let sign : Int ← if sg = '+' then some 1 else if sg = '-' then some (-1) else none
      if oh ≤ 23 ∧ om ≤ 59 then
        mkIsoDateTime y m d hh mi se (sign * (oh * 60 + om))
      else none
  | _ => none

/-- Lexical (code-unit) order on strings, the comparison the spec rules
out for date ranges. -/
def lexLtChars : List Char → List Char → Bool
| [], [] => false
| [], _ :: _ => true
| _ :: _, [] => false
| a :: as, b :: bs => a.toNat < b.toNat || (a = b && lexLtChars as bs)

/-- Lexical order on strings. -/
def strLexLt (a b : String) : Bool := lexLtChars a.data b.data

/-- Substring occurrence on character lists, used to state which names an
error message does or does not mention. -/
def listHasInfix (needle hay : List Char) : Bool :=
  needle.isPrefixOf hay ||
    match hay with
    | [] => false
    | _ :: t => listHasInfix needle t

/-- Substring occurrence on strings. -/
def strHasSub (hay needle : String) : Bool := listHasInfix needle.data hay.data

/- ------------------------------------------------------------------ -/
/- The part_003 semantic validator. -/

/-- ValidationError of part_003: a message and an optional details string
(every construction site in the source passes a details string). -/
structure ValidationError where
  message : String
  details : Option String
deriving DecidableEq

/-- Outcome of one validator call: a thrown ValidationError or a thrown
TypeError (from the filter traversal), modelled separately because
`validateAllParameters` catches only the former. -/
inductive RunErr where
| vErr (e : ValidationError)
| jsErr
deriving DecidableEq

/-- Session metrics constant of `constants.ts`. -/
def sessionMetrics : List String := ["bounce_rate", "views_per_visit", "visit_duration"]

/-- Valid metrics constant of `constants.ts`. -/
def validMetrics : List String :=
  ["visitors", "visits", "pageviews", "views_per_visit", "bounce_rate",
   "visit_duration", "events", "scroll_depth", "percentage",
   "conversion_rate", "group_conversion_rate", "average_revenue", "total_revenue",
   "time_on_page"]

/-- Predefined date ranges constant of `constants.ts`. -/
def predefinedDateRanges : List String :=
  ["day", "7d", "28d", "30d", "91d", "month", "6mo", "12mo", "year", "all"]

/-- Error thrown by `validatePercentageMetric`. -/
def percentageError : ValidationError :=
  ⟨"Metric \x27percentage\x27 requires dimensions",
   some "The \x27percentage\x27 metric calculates the percentage of visitors in each dimension group and requires at least one dimension to be specified."⟩

/-- Error thrown by `validatePageMetrics`. -/
def pageRequireError (pageMetrics : List String) : ValidationError :=
  ⟨"Metrics " ++ String.intercalate ", " pageMetrics ++ " require event:page",
   some "These metrics require either an \x27event:page\x27 dimension or filter to calculate page-specific metrics."⟩

/-- Error thrown by `validateGoalMetrics`. -/
def goalRequireError (goalMetrics : List String) : ValidationError :=
  ⟨"Metrics " ++ String.intercalate ", " goalMetrics ++ " require event:goal",
   some "These metrics require either an \x27event:goal\x27 dimension or filter. You need to set up goals in Plausible first."⟩

/-- Error thrown by `validateRevenueMetrics`. -/
def revenueRequireError (revenueMetrics : List String) : ValidationError :=
  ⟨"Metrics " ++ String.intercalate ", " revenueMetrics ++ " require revenue goal",
   some "Revenue metrics require a revenue goal to be specified. Ensure you have revenue goals configured in Plausible and use an \x27event:goal\x27 dimension or filter."⟩

/-- Error thrown by `validateSessionMetricsWithEventDimensions`, naming the
session metrics used and the `event:`-prefixed dimensions used. -/
def sessionConflictError (sessionMetricsUsed eventDimensionsUsed : List String) : ValidationError :=
  ⟨"Session metrics cannot be mixed with event dimensions",
   some ("Session metrics (" ++ String.intercalate ", " sessionMetricsUsed
     ++ ") calculate values per visit/session and cannot be used with event-level dimensions ("
     ++ String.intercalate ", " eventDimensionsUsed ++ "). Use visit dimensions instead.")⟩

/-- Error thrown by `validateTimeLabelRequirements`. -/
def timeLabelsError : ValidationError :=
  ⟨"time_labels requires a time dimension",
   some "The \x27include.time_labels\x27 option requires a time dimension (e.g., \x27time\x27, \x27time:day\x27, \x27time:hour\x27) to generate time labels."⟩

/-- Error thrown by `validateDateRange` for an unparseable custom date. -/
def dateFormatError : ValidationError :=
  ⟨"Invalid date format in date range",
   some "Custom date ranges must be in ISO8601 format (YYYY-MM-DD or YYYY-MM-DDTHH:mm:ss+TZ:TZ)"⟩

/-- Error thrown by `validateDateRange` for an out-of-order custom range. -/
def dateOrderError (start finish : String) : ValidationError :=
  ⟨"Invalid date range",
   some ("Start date (" ++ start ++ ") must be before end date (" ++ finish ++ ")")⟩

/-- The `date_range` parameter: a named range string or a custom
`[start, end]` pair. -/
inductive JsDateRange where
| named (s : String)
| pair (start finish : String)
deriving DecidableEq

/-- The optional `include` flag set. -/
structure IncludeOpts where
  imports : Option Bool
  time_labels : Option Bool
  total_rows : Option Bool
deriving DecidableEq

/-- `validatePercentageMetric` of part_003. -/
def validatePercentageMetricP (metrics : List String) (dimensions : Option (List String)) :
    Except RunErr Unit :=
  if metrics.contains "percentage"
      && (match dimensions with | none => true | some ds => ds.length = 0) then
    .error (.vErr percentageError)
  else .ok ()

/-- `validatePageMetrics` of part_003: `scroll_depth` and `time_on_page`
require `event:page` as a dimension or filter target. -/
def validatePageMetricsP (metrics : List String) (dimensions : Option (List String))
    (filters : Option (List JsVal)) : Except RunErr Unit :=
  let pageMetrics := metrics.filter (["scroll_depth", "time_on_page"].contains ·)
  if pageMetrics.length > 0 then
    let hasPageDimension := (dimensions.map (·.any (· == "event:page"))).getD false
    match hasFilterForDimensionP "event:page" (jsFilters filters) with
    | .error _ => .error .jsErr
    | .ok hasPageFilter =>
        if !hasPageDimension && !hasPageFilter then
          .error (.vErr (pageRequireError pageMetrics))
        else .ok ()
  else .ok ()

/-- `validateGoalMetrics` of part_003. -/
def validateGoalMetricsP (metrics : List String) (dimensions : Option (List String))
    (filters : Option (List JsVal)) : Except RunErr Unit :=
  let goalMetrics := metrics.filter (["conversion_rate", "group_conversion_rate"].contains ·)
  if goalMetrics.length > 0 then
    let hasGoalDimension := (dimensions.map (·.any (· == "event:goal"))).getD false
    match hasFilterForDimensionP "event:goal" (jsFilters filters) with
    | .error _ => .error .jsErr
    | .ok hasGoalFilter =>
        if !hasGoalDimension && !hasGoalFilter then
          .error (.vErr (goalRequireError goalMetrics))
        else .ok ()
  else .ok ()

/-- `validateRevenueMetrics` of part_003. -/
def validateRevenueMetricsP (metrics : List String) (dimensions : Option (List String))
    (filters : Option (List JsVal)) : Except RunErr Unit :=
  let revenueMetrics := metrics.filter (["average_revenue", "total_revenue"].contains ·)
  if revenueMetrics.length > 0 then
    let hasGoalDimension := (dimensions.map (·.any (· == "event:goal"))).getD false
    match hasFilterForDimensionP "event:goal" (jsFilters filters) with
    | .error _ => .error .jsErr
    | .ok hasGoalFilter =>
        if !hasGoalDimension && !hasGoalFilter then
          .error (.vErr (revenueRequireError revenueMetrics))
        else .ok ()
  else .ok ()

/-- `validateMetricRequirements` of part_003: the four metric-requirement
rules in source order. -/
def validateMetricRequirementsP (metrics : List String) (dimensions : Option (List String))
    (filters : Option (List JsVal)) : Except RunErr Unit := do
  validatePercentageMetricP metrics dimensions
  validatePageMetricsP metrics dimensions filters
  validateGoalMetricsP metrics dimensions filters
  validateRevenueMetricsP metrics dimensions filters

/-- `validateSessionMetricsWithEventDimensions` of part_003. The trigger
condition looks at dimensions starting with `event:` or `time:`, but the
error details list only the `event:`-prefixed dimensions used. -/
def validateSessionMetricsWithEventDimensionsP (metrics : List String)
    (dimensions : Option (List String)) : Except RunErr Unit :=
  let hasSessionMetrics := metrics.any (sessionMetrics.contains ·)
  let hasEventDimensions :=
    (dimensions.map (·.any (fun d => strStartsWith d "event:" || strStartsWith d "time:"))).getD false
  if hasSessionMetrics && hasEventDimensions then
    .error (.vErr (sessionConflictError
      (metrics.filter (sessionMetrics.contains ·))
      ((dimensions.map (·.filter (strStartsWith · "event:"))).getD [])))
  else .ok ()

/-- `validateTimeLabelRequirements` of part_003. -/
def validateTimeLabelRequirementsP (incl : Option IncludeOpts)
    (dimensions : Option (List String)) : Except RunErr Unit :=
  let timeLabelsOn : Bool := match incl with | some i => i.time_labels == some true | none => false
  if timeLabelsOn then
    let hasTimeDimension :=
      (dimensions.getD []).any (fun d => d == "time" || strStartsWith d "time:")
    if !hasTimeDimension then .error (.vErr timeLabelsError) else .ok ()
  else .ok ()

/-- `validateDateRange` of part_003: named ranges pass through; custom
pairs must parse as ISO dates and the start must be strictly before the
end (`if (startDate >= endDate) throw`). -/
def validateDateRangeP (dateRange : JsDateRange) : Except RunErr Unit :=
  match dateRange with
  | .named _ => .ok ()
  | .pair s e =>
      match parseIsoDate s, parseIsoDate e with
      | some a, some b =>
          if b.timestamp ≤ a.timestamp then .error (.vErr (dateOrderError s e)) else .ok ()
      | _, _ => .error (.vErr dateFormatError)

/-- The parameter record taken by `validateAllParameters` of part_003. -/
structure ValidateParams where
  metrics : List String
  dimensions : Option (List String)
  filters : Option (List JsVal)
  incl : Option IncludeOpts
  dateRange : JsDateRange

/-- The sequence of validator calls inside the `try` block of
`validateAllParameters`, in source order. -/
def runValidationSequence (p : ValidateParams) : Except RunErr Unit := do
  validateDateRangeP p.dateRange
  validateMetricRequirementsP p.metrics p.dimensions p.filters
  validateSessionMetricsWithEventDimensionsP p.metrics p.dimensions
  validateTimeLabelRequirementsP p.incl p.dimensions

/-- `validateAllParameters` of part_003: runs the rules, returns the first
thrown ValidationError as a value (`.ok (some e)`), `.ok none` on success,
and rethrows anything that is not a ValidationError (`.error ()`). -/
def validateAllParametersP (p : ValidateParams) : Except Unit (Option ValidationError) :=
  match runValidationSequence p with
  | .ok _ => .ok none
  | .error (.vErr e) => .ok (some e)
  | .error .jsErr => .error ()

/-- The seven individual rule results in the fixed evaluation order of the
source: date range, percentage, page metrics, goal metrics, revenue
metrics, session/event exclusion, time labels. -/
def ruleResults (p : ValidateParams) : List (Except RunErr Unit) :=
  [validateDateRangeP p.dateRange,
   validatePercentageMetricP p.metrics p.dimensions,
   validatePageMetricsP p.metrics p.dimensions p.filters,
   validateGoalMetricsP p.metrics p.dimensions p.filters,
   validateRevenueMetricsP p.metrics p.dimensions p.filters,
   validateSessionMetricsWithEventDimensionsP p.metrics p.dimensions,
   validateTimeLabelRequirementsP p.incl p.dimensions]

/-- First error in a list of rule results. -/
def firstErrorOf : List (Except RunErr Unit) → Option RunErr
| [] => none
| .ok _ :: rest => firstErrorOf rest
| .error e :: _ => some e

/- ------------------------------------------------------------------ -/
/- The tool boundary. The required-field checks live in the zod parameter
schema that part_003 registers with the MCP server (site_id
`min(1, "Site ID cannot be empty")`, metrics
`min(1, "At least one metric is required")`, date_range a required union);
zod reports all failing fields together, each issue carrying the field
path. Modelled from the spec: the Tool Registrar (the MCP SDK, outside
this repository) runs that parameter schema and rejects the call before
the handler — and hence before `validateAllParameters` — ever runs
(spec section 6: malformed types/shapes are rejected before the core
semantic validator runs). -/

/-- One schema issue: the field path it names and its message. -/
structure SchemaIssue where
  path : String
  message : String
deriving DecidableEq

/-- Raw parameters as supplied by the caller, before schema validation:
every field may be missing. -/
structure RawParams where
  site_id : Option String
  metrics : Option (List String)
  date_range : Option JsDateRange
  dimensions : Option (List String)
  filters : Option (List JsVal)
  incl : Option IncludeOpts

/-- Issues raised for the `site_id` field: required, and non-empty. -/
def siteIdIssues (v : Option String) : List SchemaIssue :=
  match v with
  | none => [⟨"site_id", "Required"⟩]
  | some s => if s.length < 1 then [⟨"site_id", "Site ID cannot be empty"⟩] else []

/-- Issues raised for the `metrics` field: required, at least one entry,
every entry drawn from the metric enumeration. -/
def metricsIssues (v : Option (List String)) : List SchemaIssue :=
  match v with
  | none => [⟨"metrics", "Required"⟩]
  | some ms =>
      (if ms.length < 1 then [⟨"metrics", "At least one metric is required"⟩] else [])
        ++ (if ms.all (validMetrics.contains ·) then [] else [⟨"metrics", "Invalid enum value"⟩])

/-- Grammar test of the zod `isoDate` regular expression
(`YYYY-MM-DD` or `YYYY-MM-DDTHH:mm:ss+HH:MM` / `...-HH:MM`),
without calendar range checks. -/
def isoDateGrammar (s : String) : Bool :=
  match s.data with
  | [y1, y2, y3, y4, '-', m1, m2, '-', d1, d2] =>
      [y1, y2, y3, y4, m1, m2, d1, d2].all Char.isDigit
  | [y1, y2, y3, y4, '-', m1, m2, '-', d1, d2, 'T',
     h1, h2, ':', n1, n2, ':', s1, s2, sg, o1, o2, ':', p1, p2] =>
      [y1, y2, y3, y4, m1, m2, d1, d2, h1, h2, n1, n2, s1, s2, o1, o2, p1, p2].all Char.isDigit
        && (sg = '+' || sg = '-')
  | _ => false

/-- The zod refinement of a custom date pair:
`new Date(start) < new Date(end)`, false when either side is an invalid
date. -/
def datePairLt (s e : String) : Bool :=
  match parseIsoDate s, parseIsoDate e with
  | some a, some b => a.timestamp < b.timestamp
  | _, _ => false

/-- Issues raised for the `date_range` field: required; a named range must
be one of the predefined ranges; a custom pair must match the ISO grammar
and have its start before its end. -/
def dateRangeIssues (v : Option JsDateRange) : List SchemaIssue :=
  match v with
  | none => [⟨"date_range", "Required"⟩]
  | some (.named s) =>
      if predefinedDateRanges.contains s then [] else [⟨"date_range", "Invalid enum value"⟩]
  | some (.pair s e) =>
      if !(isoDateGrammar s && isoDateGrammar e) then
        [⟨"date_range", "Date must be in ISO8601 format (YYYY-MM-DD or YYYY-MM-DDTHH:mm:ss+TZ:TZ)"⟩]
      else if !datePairLt s e then
        [⟨"date_range", "Start date must be before end date"⟩]
      else []

/-- All schema issues of a raw parameter object, collected across fields
the way zod aggregates them (dimension and filter shape checks are not
modelled; they are not needed by any claim). -/
def schemaIssues (r : RawParams) : List SchemaIssue :=
  siteIdIssues r.site_id ++ metricsIssues r.metrics ++ dateRangeIssues r.date_range

/-- Outcome of one tool invocation. -/
inductive PipelineResult where
| schemaError (issues : List SchemaIssue)
| validationError (e : ValidationError)
| jsError
| success
deriving DecidableEq

/-- Modelled from the spec: the Tool Registrar applies the parameter
schema first and invokes the handler (which runs `validateAllParameters`
and then executes the query) only when the schema accepted. -/
def toolPipeline (r : RawParams) : PipelineResult :=
  if schemaIssues r ≠ [] then .schemaError (schemaIssues r)
  else
    match validateAllParametersP
        ⟨r.metrics.getD [], r.dimensions, r.filters, r.incl, r.date_range.getD (.named "7d")⟩ with
    | .error _ => .jsError
    | .ok (some e) => .validationError e
    | .ok none => .success

/- ------------------------------------------------------------------ -/
/- Correspondence lemmas between the spec filter model and the two
implementations. -/

theorem strBeq_comm (a b : String) : (a == b) = (b == a) := by
  by_cases h : a = b
  · simp [h]
  · simp [beq_eq_false_iff_ne, h, Ne.symm h]

theorem hasP_arr (d : String) (l : List JsVal) :
    hasFilterForDimensionP d (.arr l) = someP d l := by
  cases l with
  | nil => simp [hasFilterForDimensionP, someP]
  | cons x xs => simp [hasFilterForDimensionP]

theorem someP_single (d : String) (v : JsVal) :
    someP d [v] = checkSingleFilterP d v := by
  cases h : checkSingleFilterP d v with
  | error e => simp [someP, h]
  | ok b => cases b <;> simp [someP, h]

theorem checkU_simple_gen (d : String) (op : SimpleOp) (dim : String) (vals : List String)
    (h1 : dim ≠ "has_done") (h2 : dim ≠ "has_not_done") :
    checkSingleFilterU d (SpecFilter.simple op dim vals).encodeU = (dim == d) := by
  simp [SpecFilter.encodeU, checkSingleFilterU, checkLen3U, checkSimpleFilterU,
        checkBehavioralFilterU, jsEqStr, jsGet, JsVal.isStr, List.getD, h1, h2]

theorem checkU_simple_page (op : SimpleOp) (dim : String) (vals : List String) :
    checkSingleFilterU "event:page" (SpecFilter.simple op dim vals).encodeU
      = (dim == "event:page") := by
  have hop : ("event:page" == "event:" ++ op.str) = false := by cases op <;> decide
  by_cases h1 : dim = "has_done"
  · subst h1
    simp [SpecFilter.encodeU, checkSingleFilterU, checkLen3U, checkSimpleFilterU,
          checkBehavioralFilterU, jsEqStr, jsGet, jsToString, JsVal.isStr, List.getD, hop]
  · by_cases h2 : dim = "has_not_done"
    · subst h2
      simp [SpecFilter.encodeU, checkSingleFilterU, checkLen3U, checkSimpleFilterU,
            checkBehavioralFilterU, jsEqStr, jsGet, jsToString, JsVal.isStr, List.getD, hop]
    · exact checkU_simple_gen "event:page" op dim vals h1 h2

theorem checkP_simple_gen (d : String) (op : SimpleOp) (dim : String) (vals : List String)
    (h3 : ¬(op = SimpleOp.is ∧ dim = "segment")) :
    checkSingleFilterP d (SpecFilter.simple op dim vals).encodeP = .ok (dim == d) := by
  cases op <;>
    simp_all [SpecFilter.encodeP, checkSingleFilterP, checkSimpleFilterP,
      checkBehavioralFilterP, jsEqStr, jsGet, SimpleOp.str, List.getD]

theorem checkP_simple_page (op : SimpleOp) (dim : String) (vals : List String) :
    checkSingleFilterP "event:page" (SpecFilter.simple op dim vals).encodeP
      = .ok (dim == "event:page") := by
  by_cases h3 : op = SimpleOp.is ∧ dim = "segment"
  · obtain ⟨h3a, h3b⟩ := h3
    subst h3a; subst h3b
    simp [SpecFilter.encodeP, checkSingleFilterP, checkSimpleFilterP,
      checkBehavioralFilterP, jsEqStr, jsGet, SimpleOp.str, List.getD]
  · exact checkP_simple_gen "event:page" op dim vals h3

theorem checkU_behavioral (d : String) (op : BOp) (t : BType) (v : String) :
    checkSingleFilterU d (SpecFilter.behavioral op t v).encodeU
      = (d == "event:" ++ t.str) := by
  cases op <;>
    simp [SpecFilter.encodeU, checkSingleFilterU, checkLen3U, checkSimpleFilterU,
      checkBehavioralFilterU, jsEqStr, jsGet, jsToString, BOp.str, List.getD]

theorem checkP_behavioral (d : String) (op : BOp) (t : BType) (v : String) :
    checkSingleFilterP d (SpecFilter.behavioral op t v).encodeP
      = .ok (("event:" ++ t.str) == d) := by
  cases op <;>
    simp [SpecFilter.encodeP, checkSingleFilterP, checkSimpleFilterP,
      checkBehavioralFilterP, jsEqStr, jsGet, BOp.str, List.getD]

theorem checkU_segment (d : String) (ids : List Int) :
    checkSingleFilterU d (SpecFilter.segment ids).encodeU = ("is" == d) := by
  simp [SpecFilter.encodeU, checkSingleFilterU, checkLen3U, checkSimpleFilterU,
    checkBehavioralFilterU, jsEqStr, jsGet, JsVal.isStr, List.getD]

theorem checkP_segment (d : String) (ids : List Int) :
    checkSingleFilterP d (SpecFilter.segment ids).encodeP = .ok false := by
  simp [SpecFilter.encodeP, checkSingleFilterP, checkSimpleFilterP,
    checkBehavioralFilterP, jsEqStr, jsGet, List.getD]

theorem checkU_and (d : String) (cs : List SpecFilter) :
    checkSingleFilterU d (SpecFilter.andF cs).encodeU = someU d (SpecFilter.encodeUList cs) := by
  simp [SpecFilter.encodeU, checkSingleFilterU, List.getD]

theorem checkU_or (d : String) (cs : List SpecFilter) :
    checkSingleFilterU d (SpecFilter.orF cs).encodeU = someU d (SpecFilter.encodeUList cs) := by
  simp [SpecFilter.encodeU, checkSingleFilterU, List.getD]

theorem checkU_not (d : String) (c : SpecFilter) :
    checkSingleFilterU d (SpecFilter.notF c).encodeU = checkSingleFilterU d c.encodeU := by
  simp [SpecFilter.encodeU, checkSingleFilterU, someU, List.getD]

theorem checkP_and (d : String) (cs : List SpecFilter) :
    checkSingleFilterP d (SpecFilter.andF cs).encodeP = someP d (SpecFilter.encodePList cs) := by
  rw [show (SpecFilter.andF cs).encodeP
      = .arr [.str "and", .arr (SpecFilter.encodePList cs)] from rfl]
  rw [checkSingleFilterP]
  simp [jsEqStr, jsGet, List.getD, hasP_arr]

theorem checkP_or (d : String) (cs : List SpecFilter) :
    checkSingleFilterP d (SpecFilter.orF cs).encodeP = someP d (SpecFilter.encodePList cs) := by
  rw [show (SpecFilter.orF cs).encodeP
      = .arr [.str "or", .arr (SpecFilter.encodePList cs)] from rfl]
  rw [checkSingleFilterP]
  simp [jsEqStr, jsGet, List.getD, hasP_arr]

theorem checkP_not (d : String) (c : SpecFilter) :
    checkSingleFilterP d (SpecFilter.notF c).encodeP = checkSingleFilterP d c.encodeP := by
  rw [show (SpecFilter.notF c).encodeP = .arr [.str "not", c.encodeP] from rfl]
  rw [checkSingleFilterP]
  simp [jsEqStr, jsGet, List.getD, hasP_arr, someP_single]

theorem someU_encodeUList (d : String) (cs : List SpecFilter)
    (h : ∀ c ∈ cs, checkSingleFilterU d c.encodeU = c.reaches d) :
    someU d (SpecFilter.encodeUList cs) = SpecFilter.reachesList d cs := by
  induction cs with
  | nil => simp [SpecFilter.encodeUList, someU, SpecFilter.reachesList]
  | cons c cs ih =>
      have hc := h c (List.mem_cons_self c cs)
      have hrest := ih (fun x hx => h x (List.mem_cons_of_mem c hx))
      simp [SpecFilter.encodeUList, someU, SpecFilter.reachesList, hc, hrest]

theorem someP_encodePList (d : String) (cs : List SpecFilter)
    (h : ∀ c ∈ cs, checkSingleFilterP d c.encodeP = .ok (c.reaches d)) :
    someP d (SpecFilter.encodePList cs) = .ok (SpecFilter.reachesList d cs) := by
  induction cs with
  | nil => simp [SpecFilter.encodePList, someP, SpecFilter.reachesList]
  | cons c cs ih =>
      have hc := h c (List.mem_cons_self c cs)
      have hrest := ih (fun x hx => h x (List.mem_cons_of_mem c hx))
      cases hr : c.reaches d with
      | true => simp [SpecFilter.encodePList, someP, SpecFilter.reachesList, hc, hr]
      | false => simp [SpecFilter.encodePList, someP, SpecFilter.reachesList, hc, hr, hrest]

theorem reachesAux : ∀ n : Nat, ∀ f : SpecFilter, f.size ≤ n →
    checkSingleFilterU "event:page" f.encodeU = f.reaches "event:page"
      ∧ checkSingleFilterP "event:page" f.encodeP = .ok (f.reaches "event:page") := by
  intro n
  induction n with
  | zero =>
      intro f hf
      have htmp := SpecFilter.size_ge_one f
      omega
  | succ n ih =>
      intro f hf
      cases f with
      | simple op dim vals =>
          exact ⟨checkU_simple_page op dim vals, checkP_simple_page op dim vals⟩
      | andF cs =>
          have hmem : ∀ c ∈ cs, c.size ≤ n := by
            intro c hc
            have h1 := SpecFilter.size_le_of_mem hc
            simp [SpecFilter.size] at hf
            omega
          constructor
          · rw [checkU_and, someU_encodeUList _ _ (fun c hc => (ih c (hmem c hc)).1)]
            simp [SpecFilter.reaches]
          · rw [checkP_and, someP_encodePList _ _ (fun c hc => (ih c (hmem c hc)).2)]
            simp [SpecFilter.reaches]
      | orF cs =>
          have hmem : ∀ c ∈ cs, c.size ≤ n := by
            intro c hc
            have h1 := SpecFilter.size_le_of_mem hc
            simp [SpecFilter.size] at hf
            omega
          constructor
          · rw [checkU_or, someU_encodeUList _ _ (fun c hc => (ih c (hmem c hc)).1)]
            simp [SpecFilter.reaches]
          · rw [checkP_or, someP_encodePList _ _ (fun c hc => (ih c (hmem c hc)).2)]
            simp [SpecFilter.reaches]
      | notF c =>
          have hc : c.size ≤ n := by
            simp [SpecFilter.size] at hf
            omega
          constructor
          · rw [checkU_not, (ih c hc).1]
            simp [SpecFilter.reaches]
          · rw [checkP_not, (ih c hc).2]
            simp [SpecFilter.reaches]
      | behavioral op t v =>
          constructor
          · rw [checkU_behavioral]
            simp [SpecFilter.reaches]
          · rw [checkP_behavioral]
            simp [SpecFilter.reaches, strBeq_comm]
      | segment ids =>
          constructor
          · rw [checkU_segment]
            simp [SpecFilter.reaches]
          · rw [checkP_segment]
            simp [SpecFilter.reaches]

theorem reachesU_node (f : SpecFilter) :
    checkSingleFilterU "event:page" f.encodeU = f.reaches "event:page" :=
  (reachesAux f.size f le_rfl).1

theorem reachesP_node (f : SpecFilter) :
    checkSingleFilterP "event:page" f.encodeP = .ok (f.reaches "event:page") :=
  (reachesAux f.size f le_rfl).2

theorem cleanList_mem {cs : List SpecFilter} (h : SpecFilter.cleanList cs = true) :
    ∀ c ∈ cs, c.clean = true := by
  induction cs with
  | nil => intro c hc; cases hc
  | cons y ys ih =>
      simp [SpecFilter.cleanList] at h
      intro c hc
      rcases List.mem_cons.mp hc with rfl | hmm
      · exact h.1
      · exact ih h.2 c hmm

theorem agreeAux : ∀ n : Nat, ∀ f : SpecFilter, f.size ≤ n → f.clean = true →
    ∀ d : String, d ≠ "is" →
      checkSingleFilterP d f.encodeP = .ok (checkSingleFilterU d f.encodeU) := by
  intro n
  induction n with
  | zero =>
      intro f hf
      have htmp := SpecFilter.size_ge_one f
      omega
  | succ n ih =>
      intro f hf hclean d hd
      cases f with
      | simple op dim vals =>
          simp [SpecFilter.clean] at hclean
          obtain ⟨⟨h1, h2⟩, h3⟩ := hclean
          rw [checkU_simple_gen d op dim vals h1 h2,
              checkP_simple_gen d op dim vals (by tauto)]
      | andF cs =>
          have hmem : ∀ c ∈ cs, c.size ≤ n := by
            intro c hc
            have h1 := SpecFilter.size_le_of_mem hc
            simp [SpecFilter.size] at hf
            omega
          have hcl : ∀ c ∈ cs, c.clean = true :=
            cleanList_mem (by simpa [SpecFilter.clean] using hclean)
          rw [checkU_and, checkP_and]
          clear hf hclean
          induction cs with
          | nil => simp [SpecFilter.encodeUList, SpecFilter.encodePList, someU, someP]
          | cons c cs ihc =>
              have hc := ih c (hmem c (List.mem_cons_self c cs)) (hcl c (List.mem_cons_self c cs)) d hd
              have hrest := ihc (fun x hx => hmem x (List.mem_cons_of_mem c hx))
                (fun x hx => hcl x (List.mem_cons_of_mem c hx))
              cases hu : checkSingleFilterU d c.encodeU with
              | true =>
                  simp [SpecFilter.encodeUList, SpecFilter.encodePList, someU, someP, hc, hu]
              | false =>
                  simp [SpecFilter.encodeUList, SpecFilter.encodePList, someU, someP, hc, hu, hrest]
      | orF cs =>
          have hmem : ∀ c ∈ cs, c.size ≤ n := by
            intro c hc
            have h1 := SpecFilter.size_le_of_mem hc
            simp [SpecFilter.size] at hf
            omega
          have hcl : ∀ c ∈ cs, c.clean = true :=
            cleanList_mem (by simpa [SpecFilter.clean] using hclean)
          rw [checkU_or, checkP_or]
          clear hf hclean
          induction cs with
          | nil => simp [SpecFilter.encodeUList, SpecFilter.encodePList, someU, someP]
          | cons c cs ihc =>
              have hc := ih c (hmem c (List.mem_cons_self c cs)) (hcl c (List.mem_cons_self c cs)) d hd
              have hrest := ihc (fun x hx => hmem x (List.mem_cons_of_mem c hx))
                (fun x hx => hcl x (List.mem_cons_of_mem c hx))
              cases hu : checkSingleFilterU d c.encodeU with
              | true =>
                  simp [SpecFilter.encodeUList, SpecFilter.encodePList, someU, someP, hc, hu]
              | false =>
                  simp [SpecFilter.encodeUList, SpecFilter.encodePList, someU, someP, hc, hu, hrest]
      | notF c =>
          have hc : c.size ≤ n := by
            simp [SpecFilter.size] at hf
            omega
          have hcl : c.clean = true := by
            simpa [SpecFilter.clean] using hclean
          rw [checkU_not, checkP_not]
          exact ih c hc hcl d hd
      | behavioral op t v =>
          rw [checkU_behavioral, checkP_behavioral, strBeq_comm]
      | segment ids =>
          rw [checkU_segment, checkP_segment]
          have : ("is" == d) = false := by
            simp [beq_eq_false_iff_ne]
            exact Ne.symm hd
          rw [this]

/- ------------------------------------------------------------------ -/
/- Auxiliary definitions used to state the claims. -/

mutual

/-- Whether the string `s` occurs anywhere in a value (used to state that
a filter tree contains no node mentioning a given dimension). -/
def JsVal.containsStr (s : String) : JsVal → Bool
| .str t => t == s
| .arr xs => JsVal.containsStrList s xs
| _ => false
termination_by v => 2 * v.size
decreasing_by
simp [JsVal.size]
omega

/-- Whether the string occurs in some element of a list of values. -/
def JsVal.containsStrList (s : String) : List JsVal → Bool
| [] => false
| x :: xs => JsVal.containsStr s x || JsVal.containsStrList s xs
termination_by xs => 2 * JsVal.sizeList xs + 1
decreasing_by
all_goals simp [JsVal.sizeList]
all_goals first
  | omega
  | (have hx := JsVal.size_pos x; omega)

end

/-- Shapes the utils.ts `checkSingleFilter` recognizes: a 2-element array
with an array second element, or a 3-element array with a string head.
Every other value is malformed for the traversal. -/
def shapeOkU : JsVal → Bool
| .arr xs =>
    (decide (xs.length = 2) && (xs.getD 1 .undefinedV).isArr)
      || (decide (xs.length = 3) && (xs.getD 0 .undefinedV).isStr)
| _ => false

theorem jsEqStr_of_not_str (v : JsVal) (s : String) (h : v.isStr = false) :
    jsEqStr v s = false := by
  cases v <;> simp_all [JsVal.isStr, jsEqStr]

theorem checkLen3U_false (d : String) (xs : List JsVal)
    (h : ¬(xs.length = 3 ∧ (xs.getD 0 .undefinedV).isStr = true)) :
    checkLen3U d xs = false := by
  by_cases hl : xs.length = 3
  · have hstr : (xs.getD 0 .undefinedV).isStr = false := by
      cases hs : (xs.getD 0 .undefinedV).isStr
      · rfl
      · exact absurd ⟨hl, hs⟩ h
    rw [checkLen3U, if_pos hl, jsEqStr_of_not_str _ _ hstr, jsEqStr_of_not_str _ _ hstr]
    have hstr2 : (xs[0]?.getD JsVal.undefinedV).isStr = false := by
      simpa [List.getD] using hstr
    simp [hstr2]
  · simp [checkLen3U, hl]

theorem someP_eq_someU (d : String) (cs : List SpecFilter)
    (h : ∀ c ∈ cs, checkSingleFilterP d c.encodeP = .ok (checkSingleFilterU d c.encodeU)) :
    someP d (SpecFilter.encodePList cs) = .ok (someU d (SpecFilter.encodeUList cs)) := by
  induction cs with
  | nil => simp [SpecFilter.encodePList, SpecFilter.encodeUList, someP, someU]
  | cons c cs ih =>
      have hc := h c (List.mem_cons_self c cs)
      have hrest := ih (fun x hx => h x (List.mem_cons_of_mem c hx))
      cases hu : checkSingleFilterU d c.encodeU with
      | true => simp [SpecFilter.encodePList, SpecFilter.encodeUList, someP, someU, hc, hu]
      | false => simp [SpecFilter.encodePList, SpecFilter.encodeUList, someP, someU, hc, hu, hrest]

theorem append_ne_empty_left (a b : String) (ha : a ≠ "") : a ++ b ≠ "" := by
  intro h
  apply ha
  cases a with
  | mk la =>
      cases b with
      | mk lb =>
          have hd : la ++ lb = [] := congrArg String.data h
          have hla : la = [] := (List.append_eq_nil.mp hd).1
          rw [hla]

/- ================================================================== -/
/- Claim results. -/

/-- C1 counterexample: the claim, as stated, is false for the utils.ts
revision. First, `[\x22has_done\x22, \x22page\x22, \x22/x\x22]` makes
`hasFilterForDimension` return true for `event:page` although the string
`event:page` occurs nowhere in the filter tree, so no Simple filter node
with that dimension is reachable. Second, a Segment filter satisfies the
search for the queried dimension `is`, contradicting the sentence that
Segment nodes never satisfy the search for any queried dimension. -/
theorem c1_counterexample :
    hasFilterForDimensionU (some [.arr [.str "has_done", .str "page", .str "/x"]])
        (some "event:page") = true
    ∧ JsVal.containsStr "event:page" (.arr [.str "has_done", .str "page", .str "/x"]) = false
    ∧ hasFilterForDimensionU (some [.arr [.str "is", .str "segment", .arr [.num 1]]])
        (some "is") = true := by
  refine ⟨?_, ?_, ?_⟩
  · simp [hasFilterForDimensionU, someU, checkSingleFilterU, checkLen3U, checkBehavioralFilterU,
      checkSimpleFilterU, jsEqStr, jsGet, jsToString, JsVal.isStr, List.getD]
  · simp [JsVal.containsStr, JsVal.containsStrList]
  · simp [hasFilterForDimensionU, someU, checkSingleFilterU, checkLen3U, checkBehavioralFilterU,
      checkSimpleFilterU, jsEqStr, jsGet, jsToString, JsVal.isStr, List.getD]

/-- C1 (amended): for every filter forest of the spec data model, queried
for the dimension `event:page`, both revisions of `hasFilterForDimension`
return true exactly when a node targeting `event:page` is reachable by
unwrapping and/or/not wrappers — where a Simple node targets its
dimension field, a Behavioral node targets the synthesized dimension
`event:<type>` (in part_003 that is the dimension of its inner Simple
filter, so plain Simple reachability; in utils.ts it is synthesized from
the 3-tuple type field), and Segment nodes never match. Each revision
receives the forest in its own encoding; the part_003 traversal also
never throws on such forests. -/
theorem c1_amended_filter_membership (fs : List SpecFilter) :
    hasFilterForDimensionU (some (SpecFilter.encodeUList fs)) (some "event:page")
        = SpecFilter.reachesList "event:page" fs
    ∧ hasFilterForDimensionP "event:page" (.arr (SpecFilter.encodePList fs))
        = .ok (SpecFilter.reachesList "event:page" fs) := by
  constructor
  · have h1 : hasFilterForDimensionU (some (SpecFilter.encodeUList fs)) (some "event:page")
        = someU "event:page" (SpecFilter.encodeUList fs) := by
      simp [hasFilterForDimensionU]
    rw [h1, someU_encodeUList _ _ (fun c _ => reachesU_node c)]
  · rw [hasP_arr, someP_encodePList _ _ (fun c _ => reachesP_node c)]

/-- C3 counterexample: no single revision supports both behavioral filter
shapes. The part_003 `hasFilterForDimension` does not find `event:page`
through the 3-tuple shape `(has_done, \x22page\x22, value)` (string
indexing makes `filter[1][1]` the one-character string `a`), and the
utils.ts revision does not find it through the 2-tuple shape
`(has_done, inner_filter)` (which its traversal mistakes for a logical
node and recurses into the inner filter components). -/
theorem c3_counterexample :
    hasFilterForDimensionP "event:page"
        (.arr [.arr [.str "has_done", .str "page", .str "/x"]]) = .ok false
    ∧ hasFilterForDimensionU
        (some [.arr [.str "has_done", .arr [.str "event:page", .str "is", .arr [.str "/x"]]]])
        (some "event:page") = false := by
  constructor
  · simp [hasFilterForDimensionP, someP, checkSingleFilterP, checkSimpleFilterP,
      checkBehavioralFilterP, jsEqStr, jsGet, List.getD]
  · simp [hasFilterForDimensionU, someU, checkSingleFilterU, checkLen3U, checkBehavioralFilterU,
      checkSimpleFilterU, jsEqStr, jsGet, jsToString, JsVal.isStr, List.getD]

/-- C3 (amended): each revision supports exactly one historical behavioral
shape. utils.ts finds `event:page` through the 3-tuple
`(has_done, \x22page\x22, value)` but not through the 2-tuple
`(has_done, inner_filter)`; part_003 finds it through the 2-tuple (the
inner filter dimension) but not through the 3-tuple. -/
theorem c3_amended_behavioral_shapes :
    hasFilterForDimensionU (some [.arr [.str "has_done", .str "page", .str "/x"]])
        (some "event:page") = true
    ∧ hasFilterForDimensionU
        (some [.arr [.str "has_done", .arr [.str "event:page", .str "is", .arr [.str "/x"]]]])
        (some "event:page") = false
    ∧ hasFilterForDimensionP "event:page"
        (.arr [.arr [.str "has_done", .arr [.str "is", .str "event:page", .arr [.str "/x"]]]])
        = .ok true
    ∧ hasFilterForDimensionP "event:page"
        (.arr [.arr [.str "has_done", .str "page", .str "/x"]]) = .ok false := by
  refine ⟨?_, ?_, ?_, ?_⟩
  · simp [hasFilterForDimensionU, someU, checkSingleFilterU, checkLen3U, checkBehavioralFilterU,
      checkSimpleFilterU, jsEqStr, jsGet, jsToString, JsVal.isStr, List.getD]
  · simp [hasFilterForDimensionU, someU, checkSingleFilterU, checkLen3U, checkBehavioralFilterU,
      checkSimpleFilterU, jsEqStr, jsGet, jsToString, JsVal.isStr, List.getD]
  · simp [hasFilterForDimensionP, someP, checkSingleFilterP, checkSimpleFilterP,
      checkBehavioralFilterP, jsEqStr, jsGet, List.getD]
  · simp [hasFilterForDimensionP, someP, checkSingleFilterP, checkSimpleFilterP,
      checkBehavioralFilterP, jsEqStr, jsGet, List.getD]

/-- C8 counterexample: the part_003 membership search is not total over
malformed nodes: on the wrong-arity behavioral node `[\x22has_done\x22]`
it throws a TypeError (indexing `undefined`) instead of treating the node
as non-matching. -/
theorem c8_counterexample :
    checkSingleFilterP "event:page" (.arr [.str "has_done"]) = .error ()
    ∧ hasFilterForDimensionP "event:page" (.arr [.arr [.str "has_done"]]) = .error () := by
  constructor
  · simp [checkSingleFilterP, checkBehavioralFilterP, jsEqStr, jsGet, List.getD]
  · simp [hasFilterForDimensionP, someP, checkSingleFilterP, checkBehavioralFilterP,
      jsEqStr, jsGet, List.getD]

/-- C8 (amended): the utils.ts revision treats every node outside the
recognized shapes (2-element array with array second element, 3-element
array with string head) as non-matching and never raises; the part_003
revision instead throws a TypeError on a behavioral operator node missing
its payload, such as `[\x22has_done\x22]`. -/
theorem c8_amended_malformed_nodes :
    (∀ (d : String) (v : JsVal), shapeOkU v = false → checkSingleFilterU d v = false)
    ∧ checkSingleFilterP "event:page" (.arr [.str "has_done"]) = .error () := by
  constructor
  · intro d v h
    cases v with
    | arr xs =>
        simp only [shapeOkU, Bool.or_eq_false_iff, Bool.and_eq_false_iff] at h
        obtain ⟨h2, h3⟩ := h
        have hlen3 : checkLen3U d xs = false := by
          apply checkLen3U_false
          intro hcon
          rcases h3 with h3 | h3
          · simp [hcon.1] at h3
          · rw [hcon.2] at h3
            cases h3
        rw [checkSingleFilterU]
        cases hg : xs.getD 1 .undefinedV with
        | arr ys =>
            have hlen2 : ¬(xs.length = 2) := by
              rcases h2 with h2 | h2
              · intro hcon
                simp [hcon] at h2
              · intro hcon
                rw [hg] at h2
                cases h2
            simp [hg, hlen2, hlen3]
        | str s => simp [hg, hlen3]
        | num n => simp [hg, hlen3]
        | bool b => simp [hg, hlen3]
        | obj => simp [hg, hlen3]
        | undefinedV => simp [hg, hlen3]
    | str s => simp [checkSingleFilterU]
    | num n => simp [checkSingleFilterU]
    | bool b => simp [checkSingleFilterU]
    | obj => simp [checkSingleFilterU]
    | undefinedV => simp [checkSingleFilterU]
  · simp [checkSingleFilterP, checkBehavioralFilterP, jsEqStr, jsGet, List.getD]

/-- C8 witness: the hypothesis of the amended theorem is discharged at the
concrete malformed node `[\x22a\x22]` (a 1-element array). -/
theorem c8_amended_malformed_nodes_witness :
    shapeOkU (.arr [.str "a"]) = false
    ∧ checkSingleFilterU "event:page" (.arr [.str "a"]) = false :=
  ⟨by decide, c8_amended_malformed_nodes.1 "event:page" (.arr [.str "a"]) (by decide)⟩

/-- C9 counterexample: the two revisions do not compute the same function.
On the filter list `[[\x22event:page\x22, \x22is\x22, [\x22/x\x22]]]`
(a simple filter in the utils.ts dimension-first convention) queried for
`event:page`, utils.ts returns true while part_003 returns false. -/
theorem c9_counterexample :
    hasFilterForDimensionU (some [.arr [.str "event:page", .str "is", .arr [.str "/x"]]])
        (some "event:page") = true
    ∧ hasFilterForDimensionP "event:page"
        (.arr [.arr [.str "event:page", .str "is", .arr [.str "/x"]]]) = .ok false := by
  constructor
  · simp [hasFilterForDimensionU, someU, checkSingleFilterU, checkLen3U, checkBehavioralFilterU,
      checkSimpleFilterU, jsEqStr, jsGet, jsToString, JsVal.isStr, List.getD]
  · simp [hasFilterForDimensionP, someP, checkSingleFilterP, checkSimpleFilterP,
      checkBehavioralFilterP, jsEqStr, jsGet, List.getD]

/-- C9 (amended): the two revisions agree up to each revision's own
encoding of the common filter data model: for every spec-model filter
forest whose simple filters avoid the behavioral operator names as
dimensions and avoid the `is`/`segment` combination, and every queried
dimension other than `is` and the empty string, part_003 returns (without
throwing) exactly the boolean utils.ts returns, each applied to the
forest in its own convention. -/
theorem c9_amended_revision_agreement (fs : List SpecFilter) (d : String)
    (hcl : SpecFilter.cleanList fs = true) (hdis : d ≠ "is") (hde : d ≠ "") :
    hasFilterForDimensionP d (.arr (SpecFilter.encodePList fs))
      = .ok (hasFilterForDimensionU (some (SpecFilter.encodeUList fs)) (some d)) := by
  have hu : hasFilterForDimensionU (some (SpecFilter.encodeUList fs)) (some d)
      = someU d (SpecFilter.encodeUList fs) := by
    simp [hasFilterForDimensionU, hde]
  rw [hasP_arr, hu]
  exact someP_eq_someU d fs
    (fun c hc => agreeAux c.size c le_rfl (cleanList_mem hcl c hc) d hdis)

/-- C9 witness: the amended agreement applied to the concrete forest
`[["is", "visit:device", ["Mobile"]]]` and dimension `event:page`. -/
theorem c9_amended_revision_agreement_witness :
    hasFilterForDimensionP "event:page"
        (.arr (SpecFilter.encodePList [SpecFilter.simple .is "visit:device" ["Mobile"]]))
      = .ok (hasFilterForDimensionU
          (some (SpecFilter.encodeUList [SpecFilter.simple .is "visit:device" ["Mobile"]]))
          (some "event:page")) :=
  c9_amended_revision_agreement [SpecFilter.simple .is "visit:device" ["Mobile"]] "event:page"
    (by simp [SpecFilter.cleanList, SpecFilter.clean]) (by decide) (by decide)

/-- C10: the utils.ts `hasFilterForDimension` returns false whenever the
filters argument is undefined, the dimension argument is undefined, or
the dimension is the empty string; and a Simple filter node whose
dimension field is the empty string never changes the result of the
search — removing it from the list leaves the result unchanged (so it can
never cause the search to return true). -/
theorem c10_undefined_guards :
    (∀ d : Option String, hasFilterForDimensionU none d = false)
    ∧ (∀ fs : Option (List JsVal), hasFilterForDimensionU fs none = false)
    ∧ (∀ fs : List JsVal, hasFilterForDimensionU (some fs) (some "") = false)
    ∧ (∀ (op vals : JsVal) (rest : List JsVal) (d : String),
        hasFilterForDimensionU (some (.arr [.str "", op, vals] :: rest)) (some d)
          = hasFilterForDimensionU (some rest) (some d)) := by
  refine ⟨?_, ?_, ?_, ?_⟩
  · intro d
    cases d <;> rfl
  · intro fs
    cases fs <;> rfl
  · intro fs
    simp [hasFilterForDimensionU]
  · intro op vals rest d
    by_cases hd : d = ""
    · subst hd
      simp [hasFilterForDimensionU]
    · have hnode : checkSingleFilterU d (.arr [.str "", op, vals]) = false := by
        have hlen3 : checkLen3U d [.str "", op, vals] = false := by
          have hsimple : checkSimpleFilterU (.arr [.str "", op, vals]) d = false := by
            simp [checkSimpleFilterU, jsEqStr, jsGet, List.getD, beq_eq_false_iff_ne,
              Ne.symm hd]
          simp [checkLen3U, jsEqStr, jsGet, List.getD, JsVal.isStr, hsimple]
        cases op <;> simp [checkSingleFilterU, List.getD, hlen3]
      simp [hasFilterForDimensionU, hd, someU, hnode]

/-- C2 counterexample: adding
`filters: [["event:page", "is", ["/x"]]]` (the dimension-first spelling
of the spec scenario) to `{metrics: ["scroll_depth"], date_range: "7d"}`
does NOT make validation pass in part_003: that revision reads the
SECOND element of a simple filter as its dimension, so the filter is not
recognized as an `event:page` filter and validation still fails with the
require-event:page error. -/
theorem c2_counterexample :
    validateAllParametersP
        ⟨["scroll_depth"], none,
         some [.arr [.str "event:page", .str "is", .arr [.str "/x"]]], none, .named "7d"⟩
      = .ok (some (pageRequireError ["scroll_depth"]))
    ∧ validateAllParametersP
        ⟨["scroll_depth"], none,
         some [.arr [.str "event:page", .str "is", .arr [.str "/x"]]], none, .named "7d"⟩
      ≠ .ok none := by
  have key : validateAllParametersP
      ⟨["scroll_depth"], none,
       some [.arr [.str "event:page", .str "is", .arr [.str "/x"]]], none, .named "7d"⟩
      = .ok (some (pageRequireError ["scroll_depth"])) := by
    simp [validateAllParametersP, runValidationSequence, validateDateRangeP,
      validateMetricRequirementsP, validatePercentageMetricP, validatePageMetricsP,
      validateGoalMetricsP, validateRevenueMetricsP,
      validateSessionMetricsWithEventDimensionsP, validateTimeLabelRequirementsP,
      hasFilterForDimensionP, someP, checkSingleFilterP, checkSimpleFilterP,
      checkBehavioralFilterP, jsFilters, jsEqStr, jsGet, List.getD, sessionMetrics,
      bind, Except.bind]
  refine ⟨key, ?_⟩
  rw [key]
  simp

/-- C2 (amended): the scroll_depth scenario against part_003, with the
filter written in the operator-first convention that revision uses.
`{metrics: ["scroll_depth"], date_range: "7d"}` fails with the error
message `Metrics scroll_depth require event:page`; adding
`dimensions: ["event:page"]` passes; adding instead
`filters: [["is", "event:page", ["/x"]]]` (no dimension) passes. -/
theorem c2_amended_scroll_depth_scenarios :
    validateAllParametersP ⟨["scroll_depth"], none, none, none, .named "7d"⟩
      = .ok (some (pageRequireError ["scroll_depth"]))
    ∧ (pageRequireError ["scroll_depth"]).message = "Metrics scroll_depth require event:page"
    ∧ validateAllParametersP ⟨["scroll_depth"], some ["event:page"], none, none, .named "7d"⟩
      = .ok none
    ∧ validateAllParametersP
        ⟨["scroll_depth"], none,
         some [.arr [.str "is", .str "event:page", .arr [.str "/x"]]], none, .named "7d"⟩
      = .ok none := by
  refine ⟨?_, by decide, ?_, ?_⟩
  · simp [validateAllParametersP, runValidationSequence, validateDateRangeP,
      validateMetricRequirementsP, validatePercentageMetricP, validatePageMetricsP,
      validateGoalMetricsP, validateRevenueMetricsP,
      validateSessionMetricsWithEventDimensionsP, validateTimeLabelRequirementsP,
      hasFilterForDimensionP, someP, checkSingleFilterP, checkSimpleFilterP,
      checkBehavioralFilterP, jsFilters, jsEqStr, jsGet, List.getD, sessionMetrics,
      bind, Except.bind]
  · simp [validateAllParametersP, runValidationSequence, validateDateRangeP,
      validateMetricRequirementsP, validatePercentageMetricP, validatePageMetricsP,
      validateGoalMetricsP, validateRevenueMetricsP,
      validateSessionMetricsWithEventDimensionsP, validateTimeLabelRequirementsP,
      hasFilterForDimensionP, someP, checkSingleFilterP, checkSimpleFilterP,
      checkBehavioralFilterP, jsFilters, jsEqStr, jsGet, List.getD, sessionMetrics,
      bind, Except.bind, strStartsWith]
  · simp [validateAllParametersP, runValidationSequence, validateDateRangeP,
      validateMetricRequirementsP, validatePercentageMetricP, validatePageMetricsP,
      validateGoalMetricsP, validateRevenueMetricsP,
      validateSessionMetricsWithEventDimensionsP, validateTimeLabelRequirementsP,
      hasFilterForDimensionP, someP, checkSingleFilterP, checkSimpleFilterP,
      checkBehavioralFilterP, jsFilters, jsEqStr, jsGet, List.getD, sessionMetrics,
      bind, Except.bind]

/-- C5: for every custom date range whose two components parse as ISO-8601
dates, `validateDateRange` passes exactly when the start timestamp is
strictly before the end timestamp (so `start >= end`, including equality,
fails); and the comparison is calendar comparison, not lexical string
comparison: the pair
`["2024-01-02T00:00:00+09:00", "2024-01-01T20:00:00+00:00"]` passes
(its start instant is earlier in UTC) although the start string is
lexically greater than the end string. -/
theorem c5_date_range_strict_calendar :
    (∀ (s e : String) (a b : IsoDateTime),
      parseIsoDate s = some a → parseIsoDate e = some b →
      (validateDateRangeP (.pair s e) = .ok () ↔ a.timestamp < b.timestamp))
    ∧ validateDateRangeP (.pair "2024-01-02T00:00:00+09:00" "2024-01-01T20:00:00+00:00")
        = .ok ()
    ∧ strLexLt "2024-01-01T20:00:00+00:00" "2024-01-02T00:00:00+09:00" = true := by
  refine ⟨?_, by decide, by decide⟩
  intro s e a b ha hb
  simp only [validateDateRangeP, ha, hb]
  by_cases h : b.timestamp ≤ a.timestamp
  · rw [if_pos h]
    constructor
    · intro hcon
      exact absurd hcon (by simp)
    · intro hlt
      omega
  · rw [if_neg h]
    constructor
    · intro _
      omega
    · intro _
      rfl

/-- C5 witness: the characterization applied at concrete custom ranges:
an in-order pair passes, an equal pair fails (strict ordering). -/
theorem c5_date_range_strict_calendar_witness :
    validateDateRangeP (.pair "2024-01-01" "2024-01-02") = .ok ()
    ∧ validateDateRangeP (.pair "2024-03-05" "2024-03-05") ≠ .ok () := by
  constructor
  · exact (c5_date_range_strict_calendar.1 "2024-01-01" "2024-01-02"
      ⟨2024, 1, 1, 0, 0, 0, 0⟩ ⟨2024, 1, 2, 0, 0, 0, 0⟩ (by decide) (by decide)).mpr (by decide)
  · intro hcon
    have htmp := (c5_date_range_strict_calendar.1 "2024-03-05" "2024-03-05"
      ⟨2024, 3, 5, 0, 0, 0, 0⟩ ⟨2024, 3, 5, 0, 0, 0, 0⟩ (by decide) (by decide)).mp hcon
    omega

/-- C6 counterexample: for `{metrics: ["bounce_rate"],
dimensions: ["time:day"]}` the session/event rule fires (a `time:`
dimension triggers it), but the error content does not name the offending
dimension: the details list only `event:`-prefixed dimensions, here the
empty list, and the string `time:day` does not occur in the details. -/
theorem c6_counterexample :
    validateSessionMetricsWithEventDimensionsP ["bounce_rate"] (some ["time:day"])
      = .error (.vErr (sessionConflictError ["bounce_rate"] []))
    ∧ strHasSub ((sessionConflictError ["bounce_rate"] []).details.getD "") "time:day" = false := by
  refine ⟨?_, by decide⟩
  simp [validateSessionMetricsWithEventDimensionsP, sessionMetrics, strStartsWith,
    sessionConflictError]

/-- C6 (amended): whenever session metrics are combined with `event:`- or
`time:`-prefixed dimensions, the validator fails with the
session-conflict error whose details name exactly the session metrics
used and the `event:`-prefixed dimensions used (computed by filtering);
`time:`-prefixed dimensions trigger the conflict but are not listed. In
particular the `bounce_rate` with `event:page` scenario names both. -/
theorem c6_amended_session_conflict_naming (metrics dims : List String)
    (h : (metrics.any (sessionMetrics.contains ·)
        && dims.any (fun d => strStartsWith d "event:" || strStartsWith d "time:")) = true) :
    validateSessionMetricsWithEventDimensionsP metrics (some dims)
      = .error (.vErr (sessionConflictError
          (metrics.filter (sessionMetrics.contains ·))
          (dims.filter (strStartsWith · "event:")))) := by
  simp only [validateSessionMetricsWithEventDimensionsP, Option.map, Option.getD]
  rw [if_pos]
  exact h

/-- C6 witness: the amended naming theorem applied at the concrete
`bounce_rate` / `event:page` scenario of the claim; the resulting details
mention both `bounce_rate` and `event:page`. -/
theorem c6_amended_session_conflict_naming_witness :
    validateSessionMetricsWithEventDimensionsP ["bounce_rate"] (some ["event:page"])
      = .error (.vErr (sessionConflictError ["bounce_rate"] ["event:page"]))
    ∧ strHasSub ((sessionConflictError ["bounce_rate"] ["event:page"]).details.getD "")
        "bounce_rate" = true
    ∧ strHasSub ((sessionConflictError ["bounce_rate"] ["event:page"]).details.getD "")
        "event:page" = true := by
  refine ⟨?_, by decide, by decide⟩
  rw [c6_amended_session_conflict_naming ["bounce_rate"] ["event:page"] (by decide)]
  rfl

/-- An error that carries a non-empty message and a non-empty details
string. -/
def goodValidationError (e : ValidationError) : Prop :=
  e.message ≠ "" ∧ ∃ s, e.details = some s ∧ s ≠ ""

theorem good_of_parts (e : ValidationError) (m dtl : String)
    (hm : e.message = m) (hd : e.details = some dtl)
    (hm2 : m ≠ "") (hd2 : dtl ≠ "") : goodValidationError e :=
  ⟨hm ▸ hm2, dtl, hd, hd2⟩

theorem dateRange_err_good (dr : JsDateRange) (e : ValidationError)
    (h : validateDateRangeP dr = .error (.vErr e)) : goodValidationError e := by
  cases dr with
  | named s => simp [validateDateRangeP] at h
  | pair s t =>
      simp only [validateDateRangeP] at h
      split at h
      · split at h
        · simp at h
          subst h
          refine good_of_parts _ "Invalid date range"
            ("Start date (" ++ s ++ ") must be before end date (" ++ t ++ ")") rfl rfl
            (by decide) ?_
          intro hcon
          have h2 := congrArg String.length hcon
          simp +decide [String.length_append] at h2
        · simp at h
      · simp at h
        subst h
        exact good_of_parts _ "Invalid date format in date range"
          "Custom date ranges must be in ISO8601 format (YYYY-MM-DD or YYYY-MM-DDTHH:mm:ss+TZ:TZ)"
          rfl rfl (by decide) (by decide)

theorem percentage_err_good (ms : List String) (ds : Option (List String)) (e : ValidationError)
    (h : validatePercentageMetricP ms ds = .error (.vErr e)) : goodValidationError e := by
  simp only [validatePercentageMetricP] at h
  split at h
  · simp at h
    subst h
    exact good_of_parts _ "Metric \x27percentage\x27 requires dimensions"
      "The \x27percentage\x27 metric calculates the percentage of visitors in each dimension group and requires at least one dimension to be specified."
      rfl rfl (by decide) (by decide)
  · simp at h

theorem page_err_good (ms : List String) (ds : Option (List String))
    (fl : Option (List JsVal)) (e : ValidationError)
    (h : validatePageMetricsP ms ds fl = .error (.vErr e)) : goodValidationError e := by
  simp only [validatePageMetricsP] at h
  split at h
  · split at h
    · simp at h
    · split at h
      · simp at h
        subst h
        refine good_of_parts _ _ _ rfl rfl ?_ (by decide)
        intro hcon
        have h2 := congrArg String.length hcon
        simp +decide [pageRequireError, goalRequireError, revenueRequireError,
          String.length_append] at h2
      · simp at h
  · simp at h

theorem goal_err_good (ms : List String) (ds : Option (List String))
    (fl : Option (List JsVal)) (e : ValidationError)
    (h : validateGoalMetricsP ms ds fl = .error (.vErr e)) : goodValidationError e := by
  simp only [validateGoalMetricsP] at h
  split at h
  · split at h
    · simp at h
    · split at h
      · simp at h
        subst h
        refine good_of_parts _ _ _ rfl rfl ?_ (by decide)
        intro hcon
        have h2 := congrArg String.length hcon
        simp +decide [pageRequireError, goalRequireError, revenueRequireError,
          String.length_append] at h2
      · simp at h
  · simp at h

theorem revenue_err_good (ms : List String) (ds : Option (List String))
    (fl : Option (List JsVal)) (e : ValidationError)
    (h : validateRevenueMetricsP ms ds fl = .error (.vErr e)) : goodValidationError e := by
  simp only [validateRevenueMetricsP] at h
  split at h
  · split at h
    · simp at h
    · split at h
      · simp at h
        subst h
        refine good_of_parts _ _ _ rfl rfl ?_ (by decide)
        intro hcon
        have h2 := congrArg String.length hcon
        simp +decide [pageRequireError, goalRequireError, revenueRequireError,
          String.length_append] at h2
      · simp at h
  · simp at h

theorem session_err_good (ms : List String) (ds : Option (List String)) (e : ValidationError)
    (h : validateSessionMetricsWithEventDimensionsP ms ds = .error (.vErr e)) :
    goodValidationError e := by
  simp only [validateSessionMetricsWithEventDimensionsP] at h
  split at h
  · simp at h
    subst h
    refine good_of_parts _ "Session metrics cannot be mixed with event dimensions" _ rfl rfl
      (by decide) ?_
    intro hcon
    have h2 := congrArg String.length hcon
    simp +decide [sessionConflictError, String.length_append] at h2
  · simp at h

theorem timeLabels_err_good (incl : Option IncludeOpts) (ds : Option (List String))
    (e : ValidationError)
    (h : validateTimeLabelRequirementsP incl ds = .error (.vErr e)) : goodValidationError e := by
  simp only [validateTimeLabelRequirementsP] at h
  split at h
  · split at h
    · simp at h
      subst h
      exact good_of_parts _ "time_labels requires a time dimension"
        "The \x27include.time_labels\x27 option requires a time dimension (e.g., \x27time\x27, \x27time:day\x27, \x27time:hour\x27) to generate time labels."
        rfl rfl (by decide) (by decide)
    · simp at h
  · simp at h

theorem validateAll_eq_first (p : ValidateParams) :
    validateAllParametersP p
      = (match firstErrorOf (ruleResults p) with
         | none => .ok none
         | some (.vErr e) => .ok (some e)
         | some .jsErr => .error ()) := by
  simp only [validateAllParametersP, runValidationSequence, validateMetricRequirementsP,
    ruleResults, bind, Except.bind]
  cases h1 : validateDateRangeP p.dateRange with
  | error e => cases e <;> simp [firstErrorOf]
  | ok u1 =>
      cases u1
      cases h2 : validatePercentageMetricP p.metrics p.dimensions with
      | error e => cases e <;> simp [firstErrorOf]
      | ok u2 =>
          cases u2
          cases h3 : validatePageMetricsP p.metrics p.dimensions p.filters with
          | error e => cases e <;> simp [firstErrorOf]
          | ok u3 =>
              cases u3
              cases h4 : validateGoalMetricsP p.metrics p.dimensions p.filters with
              | error e => cases e <;> simp [firstErrorOf]
              | ok u4 =>
                  cases u4
                  cases h5 : validateRevenueMetricsP p.metrics p.dimensions p.filters with
                  | error e => cases e <;> simp [firstErrorOf]
                  | ok u5 =>
                      cases u5
                      cases h6 : validateSessionMetricsWithEventDimensionsP p.metrics p.dimensions with
                      | error e => cases e <;> simp [firstErrorOf]
                      | ok u6 =>
                          cases u6
                          cases h7 : validateTimeLabelRequirementsP p.incl p.dimensions with
                          | error e => cases e <;> simp [firstErrorOf]
                          | ok u7 =>
                              cases u7
                              simp [firstErrorOf]

theorem validateAll_err_good (p : ValidateParams) (e : ValidationError)
    (h : validateAllParametersP p = .ok (some e)) : goodValidationError e := by
  simp only [validateAllParametersP, runValidationSequence, validateMetricRequirementsP,
    bind, Except.bind] at h
  cases h1 : validateDateRangeP p.dateRange with
  | error e1 =>
      rw [h1] at h
      cases e1 with
      | vErr e2 =>
          simp at h
          subst h
          exact dateRange_err_good _ _ h1
      | jsErr => simp at h
  | ok u1 =>
      cases u1
      rw [h1] at h
      cases h2 : validatePercentageMetricP p.metrics p.dimensions with
      | error e1 =>
          rw [h2] at h
          cases e1 with
          | vErr e2 =>
              simp at h
              subst h
              exact percentage_err_good _ _ _ h2
          | jsErr => simp at h
      | ok u2 =>
          cases u2
          rw [h2] at h
          cases h3 : validatePageMetricsP p.metrics p.dimensions p.filters with
          | error e1 =>
              rw [h3] at h
              cases e1 with
              | vErr e2 =>
                  simp at h
                  subst h
                  exact page_err_good _ _ _ _ h3
              | jsErr => simp at h
          | ok u3 =>
              cases u3
              rw [h3] at h
              cases h4 : validateGoalMetricsP p.metrics p.dimensions p.filters with
              | error e1 =>
                  rw [h4] at h
                  cases e1 with
                  | vErr e2 =>
                      simp at h
                      subst h
                      exact goal_err_good _ _ _ _ h4
                  | jsErr => simp at h
              | ok u4 =>
                  cases u4
                  rw [h4] at h
                  cases h5 : validateRevenueMetricsP p.metrics p.dimensions p.filters with
                  | error e1 =>
                      rw [h5] at h
                      cases e1 with
                      | vErr e2 =>
                          simp at h
                          subst h
                          exact revenue_err_good _ _ _ _ h5
                      | jsErr => simp at h
                  | ok u5 =>
                      cases u5
                      rw [h5] at h
                      cases h6 : validateSessionMetricsWithEventDimensionsP p.metrics p.dimensions with
                      | error e1 =>
                          rw [h6] at h
                          cases e1 with
                          | vErr e2 =>
                              simp at h
                              subst h
                              exact session_err_good _ _ _ h6
                          | jsErr => simp at h
                      | ok u6 =>
                          cases u6
                          rw [h6] at h
                          cases h7 : validateTimeLabelRequirementsP p.incl p.dimensions with
                          | error e1 =>
                              rw [h7] at h
                              cases e1 with
                              | vErr e2 =>
                                  simp at h
                                  subst h
                                  exact timeLabels_err_good _ _ _ h7
                              | jsErr => simp at h
                          | ok u7 =>
                              cases u7
                              rw [h7] at h
                              simp at h

/-- C7: `validateAllParameters` reports exactly the first violated rule of
its fixed evaluation sequence (date range, percentage, page metrics, goal
metrics, revenue metrics, session/event exclusion, time labels), with no
aggregation of later violations; and every reported ValidationError
carries both a non-empty message and a non-empty details string. -/
theorem c7_first_violation_single_error (p : ValidateParams) :
    validateAllParametersP p
      = (match firstErrorOf (ruleResults p) with
         | none => .ok none
         | some (.vErr e) => .ok (some e)
         | some .jsErr => .error ())
    ∧ (∀ e : ValidationError, validateAllParametersP p = .ok (some e) →
        e.message ≠ "" ∧ ∃ s, e.details = some s ∧ s ≠ "") :=
  ⟨validateAll_eq_first p, fun e he => validateAll_err_good p e he⟩

/-- C7 witness: a query violating two rules at once (out-of-order custom
date range, and `percentage` without dimensions) reports only the first
violated rule of the sequence — the date-range error — and that error has
a non-empty message and non-empty details. -/
theorem c7_first_violation_single_error_witness :
    validateAllParametersP ⟨["percentage"], none, none, none, .pair "2024-02-01" "2024-01-01"⟩
      = .ok (some (dateOrderError "2024-02-01" "2024-01-01"))
    ∧ (dateOrderError "2024-02-01" "2024-01-01").message ≠ ""
    ∧ ∃ s, (dateOrderError "2024-02-01" "2024-01-01").details = some s ∧ s ≠ "" := by
  have h1 := (c7_first_violation_single_error
    ⟨["percentage"], none, none, none, .pair "2024-02-01" "2024-01-01"⟩).1
  have h2 : validateAllParametersP
      ⟨["percentage"], none, none, none, .pair "2024-02-01" "2024-01-01"⟩
      = .ok (some (dateOrderError "2024-02-01" "2024-01-01")) := by
    rw [h1]
    have : firstErrorOf (ruleResults
        ⟨["percentage"], none, none, none, .pair "2024-02-01" "2024-01-01"⟩)
        = some (.vErr (dateOrderError "2024-02-01" "2024-01-01")) := by
      have hd : validateDateRangeP (.pair "2024-02-01" "2024-01-01")
          = .error (.vErr (dateOrderError "2024-02-01" "2024-01-01")) := by decide
      simp only [ruleResults, firstErrorOf, hd]
    rw [this]
  refine ⟨h2, ?_⟩
  have htmp := (c7_first_violation_single_error
    ⟨["percentage"], none, none, none, .pair "2024-02-01" "2024-01-01"⟩).2 _ h2
  exact htmp

/-- C4: for every raw parameter object, a missing `site_id`, an empty
`metrics` list, or a missing `date_range` makes the pipeline fail at the
schema stage — before the semantic validator runs — with an issue naming
that field, independently of the validity of every other field; and the
three issues are pairwise distinct. -/
theorem c4_required_fields_first (r : RawParams) :
    (r.site_id = none →
      toolPipeline r = .schemaError (schemaIssues r)
        ∧ (⟨"site_id", "Required"⟩ : SchemaIssue) ∈ schemaIssues r)
    ∧ (r.metrics = some [] →
      toolPipeline r = .schemaError (schemaIssues r)
        ∧ (⟨"metrics", "At least one metric is required"⟩ : SchemaIssue) ∈ schemaIssues r)
    ∧ (r.date_range = none →
      toolPipeline r = .schemaError (schemaIssues r)
        ∧ (⟨"date_range", "Required"⟩ : SchemaIssue) ∈ schemaIssues r)
    ∧ (⟨"site_id", "Required"⟩ : SchemaIssue) ≠ ⟨"metrics", "At least one metric is required"⟩
    ∧ (⟨"metrics", "At least one metric is required"⟩ : SchemaIssue) ≠ ⟨"date_range", "Required"⟩
    ∧ (⟨"site_id", "Required"⟩ : SchemaIssue) ≠ ⟨"date_range", "Required"⟩ := by
  have pipe_of_mem : ∀ (i : SchemaIssue), i ∈ schemaIssues r →
      toolPipeline r = .schemaError (schemaIssues r) := by
    intro i hi
    have hne : schemaIssues r ≠ [] := by
      intro h0
      rw [h0] at hi
      cases hi
    simp [toolPipeline, hne]
  refine ⟨?_, ?_, ?_, by decide, by decide, by decide⟩
  · intro hs
    have hmem : (⟨"site_id", "Required"⟩ : SchemaIssue) ∈ schemaIssues r := by
      simp [schemaIssues, siteIdIssues, hs]
    exact ⟨pipe_of_mem _ hmem, hmem⟩
  · intro hm
    have hmem : (⟨"metrics", "At least one metric is required"⟩ : SchemaIssue)
        ∈ schemaIssues r := by
      simp [schemaIssues, metricsIssues, hm, validMetrics]
    exact ⟨pipe_of_mem _ hmem, hmem⟩
  · intro hd
    have hmem : (⟨"date_range", "Required"⟩ : SchemaIssue) ∈ schemaIssues r := by
      simp [schemaIssues, dateRangeIssues, hd]
    exact ⟨pipe_of_mem _ hmem, hmem⟩

/-- C4 witness: the pipeline applied to a raw object missing `site_id`
and `date_range` with empty `metrics` (and all optional fields absent):
it fails at the schema stage and the issues name all three fields. -/
theorem c4_required_fields_first_witness :
    toolPipeline ⟨none, some [], none, none, none, none⟩
      = .schemaError (schemaIssues ⟨none, some [], none, none, none, none⟩)
    ∧ (⟨"site_id", "Required"⟩ : SchemaIssue)
        ∈ schemaIssues ⟨none, some [], none, none, none, none⟩
    ∧ (⟨"metrics", "At least one metric is required"⟩ : SchemaIssue)
        ∈ schemaIssues ⟨none, some [], none, none, none, none⟩
    ∧ (⟨"date_range", "Required"⟩ : SchemaIssue)
        ∈ schemaIssues ⟨none, some [], none, none, none, none⟩ :=
  ⟨((c4_required_fields_first ⟨none, some [], none, none, none, none⟩).1 rfl).1,
   ((c4_required_fields_first ⟨none, some [], none, none, none, none⟩).1 rfl).2,
   ((c4_required_fields_first ⟨none, some [], none, none, none, none⟩).2.1 rfl).2,
   ((c4_required_fields_first ⟨none, some [], none, none, none, none⟩).2.2.1 rfl).2⟩
